import Mathlib

/-!
Verification of the conversation-state orchestration protocol of
`_standalone_scripts/chat_with_claude.py`.

The Python script is shallowly embedded: JSON values become an inductive
`JValue` (floating-point timestamps are represented by an integer clock value
passed in explicitly, since no property here depends on real arithmetic);
the remote service (`requests.post` inside `send_message`) is abstracted as an
oracle `send : List Message → Option Reply`, `none` standing for the `None`
that `send_message` returns on any `requests.exceptions.RequestException`;
console printing is recorded as an explicit event log so that statements such
as "the follow-up Transport call is performed" or "the anomaly is reported"
can be expressed.  The orchestration functions `process_tool_use_response`
and the per-input body of `main`'s loop are translated statement for
statement.
-/

namespace Chat

/-- JSON-like structured values (tool arguments, tool result payloads).
`num` carries an integer: the only numeric payload produced by the script is
`time.time()` inside `search_web`, modelled by an explicit clock argument. -/
inductive JValue where
  | str (s : String)
  | num (n : Int)
  | bool (b : Bool)
  | arr (xs : List JValue)
  | obj (fields : List (String × JValue))
deriving Repr

/-- Python `key in dict` on a JSON object; `false` on non-objects. -/
def hasKey (v : JValue) (key : String) : Bool :=
  match v with
  | .obj fields => fields.any fun p => p.1 = key
  | _ => false

/-- Python `dict.get(key)` on a JSON object. -/
def getKey (v : JValue) (key : String) : Option JValue :=
  match v with
  | .obj fields =>
    match fields.find? (fun p => p.1 = key) with
    | some p => some p.2
    | none => none
  | _ => none

mutual

/-- `json.dumps`, restricted to the value forms above (no escaping is needed
for the strings the script produces). -/
def dumps : JValue → String
  | .str s => "\"" ++ s ++ "\""
  | .num n => toString n
  | .bool b => if b then "true" else "false"
  | .arr xs => "[" ++ dumpsArr xs ++ "]"
  | .obj fields => "\x7b" ++ dumpsObj fields ++ "\x7d"

def dumpsArr : List JValue → String
  | [] => ""
  | [x] => dumps x
  | x :: y :: rest => dumps x ++ ", " ++ dumpsArr (y :: rest)

def dumpsObj : List (String × JValue) → String
  | [] => ""
  | [(k, v)] => "\"" ++ k ++ "\": " ++ dumps v
  | (k, v) :: p :: rest => "\"" ++ k ++ "\": " ++ dumps v ++ ", " ++ dumpsObj (p :: rest)

end

/-- Python `str()` as used by f-string interpolation of a tool argument. -/
def pyStr : JValue → String
  | .str s => s
  | v => dumps v

/-- A content block of an assistant (or tool-result) message, after JSON
decoding: the script reads `content.get('type')` and the fields of each
block.  `other` stands for any block type the script does not inspect. -/
inductive ContentBlock where
  | text (s : String)
  | toolUse (id : String) (name : String) (input : JValue)
  | toolResult (tool_use_id : String) (content : String) (is_error : Bool)
  | other (typ : String)
deriving Repr

/-- Message content: user turns carry a bare string, assistant and
tool-result turns carry a list of content blocks. -/
inductive MsgContent where
  | str (s : String)
  | blocks (bs : List ContentBlock)
deriving Repr

/-- One element of the `conversation` list. -/
structure Message where
  role : String
  content : MsgContent
deriving Repr

/-- A decoded successful response body: `response_data.get('content', [])`
and `response_data.get('stop_reason')`. -/
structure Reply where
  content : List ContentBlock
  stop_reason : String
deriving Repr

/-- Observable side effects of one cycle, standing in for console output and
for the act of calling the service. -/
inductive Event where
  | transportCalled (transcript : List Message)
  | toolExecuted (name : String)
  | anomalyReported
  | failureReported
  | diagnostic (msg : String)
deriving Repr

/-- `conversation.append({"role": "user", "content": user_input})`. -/
def userMsg (s : String) : Message := ⟨"user", .str s⟩

/-- An assistant message carrying a reply's raw content blocks. -/
def asstMsg (bs : List ContentBlock) : Message := ⟨"assistant", .blocks bs⟩

/-- The `tool_result_message` built at lines 184-194 of the script: role
`"user"`, a single `tool_result` block echoing the invocation id, the
serialized outcome, and `is_error` set iff the outcome mapping has an
`'error'` key (line 170). -/
def tool_result_message (tool_id : String) (tool_result : JValue) : Message :=
  ⟨"user", .blocks [.toolResult tool_id (dumps tool_result) (hasKey tool_result "error")]⟩

/-- The loop at lines 140-144: the first content block whose type is
`tool_use`, as `(id, name, input)`. -/
def firstToolUse : List ContentBlock → Option (String × String × JValue)
  | [] => none
  | .toolUse id name input :: _ => some (id, name, input)
  | _ :: rest => firstToolUse rest

/-- `search_web` (lines 95-120): builds the simulated result object.  The
ambient `time.time()` clock is the explicit argument `now`. -/
def search_web (now : Int) (params : JValue) : JValue :=
  let query := (getKey params "query").getD (.str "")
  let q := pyStr query
  let results : JValue := .arr
    [ .obj [("title", .str ("Result 1 for " ++ q)),
            ("snippet", .str ("This is a simulated search result for '" ++ q ++
              "'. It contains some relevant information about the topic."))],
      .obj [("title", .str ("Result 2 for " ++ q)),
            ("snippet", .str ("Another simulated result related to '" ++ q ++
              "'. This would typically come from a search engine."))],
      .obj [("title", .str ("Result 3 for " ++ q)),
            ("snippet", .str ("A third simulated search result for '" ++ q ++
              "'. In a real implementation, this would contain actual web search results."))] ]
  .obj [("query", query), ("results", results),
        ("search_time", .num now), ("result_count", .num 3)]

/-- The body of `search_web` as it runs inside `execute_tool`'s `try`: the
only statement that can raise is `params.get(...)` when `params` is not a
dict (`AttributeError`), modelled as `Except.error`. -/
def search_web_run (now : Int) (params : JValue) : Except String JValue :=
  match params with
  | .obj _ => .ok (search_web now params)
  | _ => .error "AttributeError: object has no attribute get"

/-- `execute_tool` (lines 122-135), generic in the handler body so that the
`except`-conversion can be stated for an arbitrary raising handler: the
`try` block dispatches on the tool name (unknown names return the
`{"error": ...}` dict without raising); an exception from the handler is
converted to an `{"error": ...}` dict.  The function's return type is a
plain value: no exception escapes this boundary. -/
def execute_toolG (handler : JValue → Except String JValue)
    (tool_name : String) (tool_input : JValue) : JValue :=
  let body : Except String JValue :=
    if tool_name = "search_web" then handler tool_input
    else .ok (.obj [("error", .str ("Unknown tool: " ++ tool_name))])
  match body with
  | .ok v => v
  | .error e => .obj [("error", .str ("Error executing tool " ++ tool_name ++ ": " ++ e))]

/-- `execute_tool` with the script's actual registry (`search_web` only). -/
def execute_tool (now : Int) : String → JValue → JValue :=
  execute_toolG (search_web_run now)

/-- The `while len(conversation) > len(conversation_copy): conversation.pop()`
recovery loop (lines 219-220 and 230-231). -/
def rollback (n : Nat) (conversation : List Message) : List Message :=
  if _h : n < conversation.length then rollback n conversation.dropLast
  else conversation
termination_by conversation.length
decreasing_by
  simp only [List.length_dropLast]
  omega

/-- Output of one `process_tool_use_response` call: the updated conversation,
the observable events in program order, and the returned value. -/
structure ProcOut where
  conversation : List Message
  events : List Event
  ret : Option Reply
deriving Repr

/-- `process_tool_use_response` (lines 137-234), generic in the tool
executor `exec` (the script fixes `exec := execute_tool now`) and in the
transport oracle `send` (the script's `send_message(api_key, ·, True)`).
Control flow follows the source: no `tool_use` block ⇒ append the assistant
turn as-is and return `None` (anomaly path); otherwise save
`conversation_copy`, run the tool, append the assistant turn and the
tool-result turn, call the transport again; on `None` pop back down to the
saved length. -/
def processG (exec : String → JValue → JValue)
    (send : List Message → Option Reply)
    (conversation : List Message) (response_data : Reply) : ProcOut :=
  match firstToolUse response_data.content with
  | none =>
      { conversation := conversation ++ [asstMsg response_data.content],
        events := [.anomalyReported],
        ret := none }
  | some (tool_id, tool_name, tool_input) =>
      let conversation_copy := conversation
      let tool_result := exec tool_name tool_input
      let is_error := hasKey tool_result "error"
      let conv1 := conversation ++ [asstMsg response_data.content]
      let conv2 := conv1 ++ [⟨"user", .blocks [.toolResult tool_id (dumps tool_result) is_error]⟩]
      match send conv2 with
      | some final_response =>
          { conversation := conv2 ++ [asstMsg final_response.content],
            events := [.toolExecuted tool_name, .transportCalled conv2],
            ret := some final_response }
      | none =>
          { conversation := rollback conversation_copy.length conv2,
            events := [.toolExecuted tool_name, .transportCalled conv2, .failureReported],
            ret := none }

/-- One iteration of `main`'s chat loop for a non-command input (lines
285-316): append the user turn, call the transport; on failure keep only the
user turn; on a `tool_use` stop reason hand over to
`process_tool_use_response`; otherwise append the assistant turn. -/
def mainCycle (send : List Message → Option Reply)
    (exec : String → JValue → JValue)
    (conversation : List Message) (user_input : String) :
    List Message × List Event :=
  let conv1 := conversation ++ [userMsg user_input]
  match send conv1 with
  | none => (conv1, [.transportCalled conv1, .failureReported])
  | some response_data =>
    if response_data.stop_reason = "tool_use" then
      let p := processG exec send conv1 response_data
      (p.conversation, .transportCalled conv1 :: p.events)
    else
      (conv1 ++ [asstMsg response_data.content], [.transportCalled conv1])

/-- Transcript states reachable at the boundary between user-input cycles:
the empty transcript (session start, also the state after `reset`), and the
result of any further cycle.  The service is unconstrained: each cycle may
observe an arbitrary oracle, and the ambient clock may differ per cycle. -/
inductive Reachable : List Message → Prop where
  | init : Reachable []
  | step (send : List Message → Option Reply) (now : Int)
      (conv : List Message) (input : String) :
      Reachable conv → Reachable (mainCycle send (execute_tool now) conv input).1

/-- Names of tools executed during a cycle, in order. -/
def executedTools (events : List Event) : List String :=
  events.filterMap fun e =>
    match e with
    | .toolExecuted n => some n
    | _ => none

theorem rollback_eq_take :
    ∀ (k : Nat) (l : List Message) (n : Nat), l.length ≤ k → rollback n l = l.take n := by
  intro k
  induction k with
  | zero =>
    intro l n hl
    have hnil : l = [] := List.eq_nil_of_length_eq_zero (Nat.le_zero.mp hl)
    subst hnil
    unfold rollback
    simp
  | succ k ih =>
    intro l n hl
    unfold rollback
    split
    · next h =>
      rw [ih l.dropLast n (by simp only [List.length_dropLast]; omega)]
      rw [List.dropLast_eq_take, List.take_take]
      congr 1
      omega
    · next h =>
      exact (List.take_of_length_le (by omega)).symm

theorem rollback_append (l extra : List Message) : rollback l.length (l ++ extra) = l := by
  rw [rollback_eq_take (l ++ extra).length (l ++ extra) l.length le_rfl]
  exact List.take_left l extra

theorem processG_anomaly (exec : String → JValue → JValue)
    (send : List Message → Option Reply)
    (conversation : List Message) (r : Reply)
    (h : firstToolUse r.content = none) :
    processG exec send conversation r =
      { conversation := conversation ++ [asstMsg r.content],
        events := [.anomalyReported],
        ret := none } := by
  unfold processG
  rw [h]

theorem processG_success (exec : String → JValue → JValue)
    (send : List Message → Option Reply)
    (conversation : List Message) (r : Reply)
    (id name : String) (args : JValue) (final : Reply)
    (h3 : firstToolUse r.content = some (id, name, args))
    (h4 : send (conversation ++ [asstMsg r.content, tool_result_message id (exec name args)]) =
            some final) :
    processG exec send conversation r =
      { conversation := conversation ++ [asstMsg r.content,
          tool_result_message id (exec name args), asstMsg final.content],
        events := [.toolExecuted name,
          .transportCalled (conversation ++ [asstMsg r.content, tool_result_message id (exec name args)])],
        ret := some final } := by
  unfold processG
  rw [h3]
  simp only [tool_result_message] at h4 ⊢
  rw [show conversation ++ [asstMsg r.content,
        (⟨"user", .blocks [.toolResult id (dumps (exec name args)) (hasKey (exec name args) "error")]⟩ : Message)] =
      (conversation ++ [asstMsg r.content]) ++
        [⟨"user", .blocks [.toolResult id (dumps (exec name args)) (hasKey (exec name args) "error")]⟩]
    from by simp] at h4
  rw [h4]
  simp

theorem processG_rollback (exec : String → JValue → JValue)
    (send : List Message → Option Reply)
    (conversation : List Message) (r : Reply)
    (id name : String) (args : JValue)
    (h3 : firstToolUse r.content = some (id, name, args))
    (h4 : send (conversation ++ [asstMsg r.content, tool_result_message id (exec name args)]) =
            none) :
    processG exec send conversation r =
      { conversation := conversation,
        events := [.toolExecuted name,
          .transportCalled (conversation ++ [asstMsg r.content, tool_result_message id (exec name args)]),
          .failureReported],
        ret := none } := by
  unfold processG
  rw [h3]
  simp only [tool_result_message] at h4 ⊢
  rw [show conversation ++ [asstMsg r.content,
        (⟨"user", .blocks [.toolResult id (dumps (exec name args)) (hasKey (exec name args) "error")]⟩ : Message)] =
      (conversation ++ [asstMsg r.content]) ++
        [⟨"user", .blocks [.toolResult id (dumps (exec name args)) (hasKey (exec name args) "error")]⟩]
    from by simp] at h4
  rw [h4]
  have : (conversation ++ [asstMsg r.content]) ++
      [(⟨"user", .blocks [.toolResult id (dumps (exec name args)) (hasKey (exec name args) "error")]⟩ : Message)] =
      conversation ++ ([asstMsg r.content] ++
        [⟨"user", .blocks [.toolResult id (dumps (exec name args)) (hasKey (exec name args) "error")]⟩]) := by
    simp
  rw [this, rollback_append]
  simp

theorem mainCycle_fail (send : List Message → Option Reply)
    (exec : String → JValue → JValue)
    (conversation : List Message) (input : String)
    (h : send (conversation ++ [userMsg input]) = none) :
    mainCycle send exec conversation input =
      (conversation ++ [userMsg input],
       [.transportCalled (conversation ++ [userMsg input]), .failureReported]) := by
  unfold mainCycle
  dsimp only
  rw [h]

theorem mainCycle_plain (send : List Message → Option Reply)
    (exec : String → JValue → JValue)
    (conversation : List Message) (input : String) (r : Reply)
    (h1 : send (conversation ++ [userMsg input]) = some r)
    (h2 : r.stop_reason ≠ "tool_use") :
    mainCycle send exec conversation input =
      (conversation ++ [userMsg input] ++ [asstMsg r.content],
       [.transportCalled (conversation ++ [userMsg input])]) := by
  unfold mainCycle
  dsimp only
  rw [h1]
  simp [h2]

theorem mainCycle_tool (send : List Message → Option Reply)
    (exec : String → JValue → JValue)
    (conversation : List Message) (input : String) (r : Reply)
    (h1 : send (conversation ++ [userMsg input]) = some r)
    (h2 : r.stop_reason = "tool_use") :
    mainCycle send exec conversation input =
      ((processG exec send (conversation ++ [userMsg input]) r).conversation,
       .transportCalled (conversation ++ [userMsg input]) ::
         (processG exec send (conversation ++ [userMsg input]) r).events) := by
  unfold mainCycle
  dsimp only
  rw [h1]
  simp [h2]

theorem firstToolUse_eq_none_iff (bs : List ContentBlock) :
    firstToolUse bs = none ↔ ∀ id name args, ContentBlock.toolUse id name args ∉ bs := by
  induction bs with
  | nil => simp [firstToolUse]
  | cons b rest ih =>
    cases b with
    | toolUse id name args =>
      simp only [firstToolUse]
      constructor
      · intro h
        cases h
      · intro h
        exact (h id name args (List.mem_cons_self _ _)).elim
    | text s => simp [firstToolUse, ih]
    | toolResult a c e => simp [firstToolUse, ih]
    | other t => simp [firstToolUse, ih]

theorem firstToolUse_mem (bs : List ContentBlock) (id name : String) (args : JValue)
    (h : firstToolUse bs = some (id, name, args)) :
    ContentBlock.toolUse id name args ∈ bs := by
  induction bs with
  | nil => simp [firstToolUse] at h
  | cons b rest ih =>
    cases b with
    | toolUse i n a =>
      simp only [firstToolUse, Option.some.injEq, Prod.mk.injEq] at h
      obtain ⟨h1, h2, h3⟩ := h
      subst h1; subst h2; subst h3
      exact List.mem_cons_self _ _
    | text s => exact List.mem_cons_of_mem _ (ih (by simpa [firstToolUse] using h))
    | toolResult a c e => exact List.mem_cons_of_mem _ (ih (by simpa [firstToolUse] using h))
    | other t => exact List.mem_cons_of_mem _ (ih (by simpa [firstToolUse] using h))

theorem executedTools_processG (exec : String → JValue → JValue)
    (send : List Message → Option Reply)
    (conversation : List Message) (r : Reply)
    (id name : String) (args : JValue)
    (h3 : firstToolUse r.content = some (id, name, args)) :
    executedTools (processG exec send conversation r).events = [name] := by
  cases h4 : send (conversation ++ [asstMsg r.content, tool_result_message id (exec name args)]) with
  | none => rw [processG_rollback _ _ _ _ _ _ _ h3 h4]; rfl
  | some final => rw [processG_success _ _ _ _ _ _ _ _ h3 h4]; rfl

/-- Witness fixture: a reply requesting the `search_web` tool. -/
def wReplyTU : Reply :=
  ⟨[.toolUse "tu_1" "search_web" (.obj [("query", .str "cats")])], "tool_use"⟩

/-- Witness fixture: a follow-up reply that itself has stop reason
`tool_use`. -/
def wReplyTU2 : Reply :=
  ⟨[.toolUse "tu_2" "search_web" (.obj [("query", .str "dogs")])], "tool_use"⟩

/-- Witness fixture: an oracle that answers the first call with a tool-use
reply and fails the follow-up call. -/
def wSendFailFollowup : List Message → Option Reply :=
  fun c => if c.length = 1 then some wReplyTU else none

/-- Witness fixture: an oracle that answers the first call with a tool-use
reply and the follow-up call with another tool-use reply. -/
def wSendSingleHop : List Message → Option Reply :=
  fun c => if c.length = 1 then some wReplyTU else
    if c.length = 3 then some wReplyTU2 else none

/-- Witness fixture: an oracle that always fails. -/
def wSendNone : List Message → Option Reply := fun _ => none

/-- Witness fixture: a tool executor that always reports an error. -/
def wExecErr : String → JValue → JValue := fun _ _ => .obj [("error", .str "boom")]

/-- C1: if the first reply of a cycle is classified as a tool-use request
with an extractable invocation, the tool is executed, and the follow-up
transport call returns no reply, the cycle ends with the transcript rolled
back to exactly the pre-cycle transcript plus the one user turn: the
assistant turn and the tool-result turn are removed, restoring the saved
checkpoint; the tool execution and the failure report are observable. -/
theorem c1_rollback_restores_checkpoint
    (send : List Message → Option Reply) (exec : String → JValue → JValue)
    (conv : List Message) (input : String) (r : Reply)
    (id name : String) (args : JValue)
    (h1 : send (conv ++ [userMsg input]) = some r)
    (h2 : r.stop_reason = "tool_use")
    (h3 : firstToolUse r.content = some (id, name, args))
    (h4 : send (conv ++ [userMsg input] ++
            [asstMsg r.content, tool_result_message id (exec name args)]) = none) :
    (mainCycle send exec conv input).1 = conv ++ [userMsg input]
    ∧ Event.toolExecuted name ∈ (mainCycle send exec conv input).2
    ∧ Event.failureReported ∈ (mainCycle send exec conv input).2 := by
  rw [mainCycle_tool send exec conv input r h1 h2,
      processG_rollback exec send (conv ++ [userMsg input]) r id name args h3 h4]
  refine ⟨rfl, ?_, ?_⟩ <;> simp

theorem c1_witness :
    (mainCycle wSendFailFollowup (execute_tool 0) [] "hi").1 = [] ++ [userMsg "hi"]
    ∧ Event.toolExecuted "search_web" ∈ (mainCycle wSendFailFollowup (execute_tool 0) [] "hi").2
    ∧ Event.failureReported ∈ (mainCycle wSendFailFollowup (execute_tool 0) [] "hi").2 :=
  c1_rollback_restores_checkpoint wSendFailFollowup (execute_tool 0) [] "hi" wReplyTU
    "tu_1" "search_web" (.obj [("query", .str "cats")]) rfl rfl rfl rfl

/-- C3: whenever a tool-use reply has an extractable invocation, the
orchestrator performs the follow-up transport call on the transcript whose
last turn is the tool-result turn, which echoes the invocation's id
unchanged as `tool_use_id` and carries `is_error` computed from the outcome;
this holds for every executor, in particular one that always fails, so a
tool failure never suppresses the follow-up call. -/
theorem c3_error_as_data
    (exec : String → JValue → JValue)
    (send : List Message → Option Reply)
    (conversation : List Message) (r : Reply)
    (id name : String) (args : JValue)
    (h : firstToolUse r.content = some (id, name, args)) :
    Event.transportCalled (conversation ++ [asstMsg r.content,
      ⟨"user", .blocks [.toolResult id (dumps (exec name args))
        (hasKey (exec name args) "error")]⟩])
      ∈ (processG exec send conversation r).events := by
  cases hs : send (conversation ++ [asstMsg r.content, tool_result_message id (exec name args)]) with
  | none =>
    rw [processG_rollback exec send conversation r id name args h hs]
    simp [tool_result_message]
  | some final =>
    rw [processG_success exec send conversation r id name args final h hs]
    simp [tool_result_message]

theorem c3_witness :
    Event.transportCalled ([] ++ [asstMsg wReplyTU.content,
      ⟨"user", .blocks [.toolResult "tu_1"
        (dumps (wExecErr "search_web" (.obj [("query", .str "cats")])))
        (hasKey (wExecErr "search_web" (.obj [("query", .str "cats")])) "error")]⟩])
      ∈ (processG wExecErr wSendNone [] wReplyTU).events :=
  c3_error_as_data wExecErr wSendNone [] wReplyTU "tu_1" "search_web"
    (.obj [("query", .str "cats")]) rfl

/-- C5: a reply with stop reason `tool_use` but no tool-invocation content
block makes the orchestrator append the assistant turn with the reply's
content as-is and report the anomaly; the cycle's transcript ends with
exactly the user turn and that assistant turn, no tool is executed, and no
follow-up transport call is made (the event log holds exactly the initial
transport call and the anomaly report). -/
theorem c5_protocol_anomaly
    (send : List Message → Option Reply) (exec : String → JValue → JValue)
    (conv : List Message) (input : String) (r : Reply)
    (h1 : send (conv ++ [userMsg input]) = some r)
    (h2 : r.stop_reason = "tool_use")
    (h3 : ∀ id name args, ContentBlock.toolUse id name args ∉ r.content) :
    (mainCycle send exec conv input).1 = conv ++ [userMsg input, asstMsg r.content]
    ∧ (mainCycle send exec conv input).2 =
        [.transportCalled (conv ++ [userMsg input]), .anomalyReported] := by
  have h3' : firstToolUse r.content = none := (firstToolUse_eq_none_iff _).mpr h3
  rw [mainCycle_tool send exec conv input r h1 h2, processG_anomaly exec send _ r h3']
  exact ⟨by simp, rfl⟩

/-- Witness fixture: a protocol-anomaly reply. -/
def wReplyAnom : Reply := ⟨[.text "oops"], "tool_use"⟩

/-- Witness fixture: an oracle that always returns the anomaly reply. -/
def wSendAnom : List Message → Option Reply := fun _ => some wReplyAnom

theorem c5_witness :
    (mainCycle wSendAnom (execute_tool 0) [] "hi").1 = [] ++ [userMsg "hi", asstMsg wReplyAnom.content]
    ∧ (mainCycle wSendAnom (execute_tool 0) [] "hi").2 =
        [.transportCalled ([] ++ [userMsg "hi"]), .anomalyReported] :=
  c5_protocol_anomaly wSendAnom (execute_tool 0) [] "hi" wReplyAnom rfl rfl
    (by intro id name args hmem; simp [wReplyAnom] at hmem)

/-- C6: the tool executor is total at its boundary: its return type is a
plain value, an unknown tool name yields the `Unknown tool` error payload
(so `is_error` becomes true downstream), and a handler that raises is
converted to the `Error executing tool` error payload; a handler that
returns normally has its value passed through. -/
theorem c6_executor_total
    (handler : JValue → Except String JValue) (name : String) (args : JValue) :
    (name ≠ "search_web" →
      execute_toolG handler name args = .obj [("error", .str ("Unknown tool: " ++ name))])
    ∧ (∀ e, handler args = .error e →
        execute_toolG handler "search_web" args =
          .obj [("error", .str ("Error executing tool search_web: " ++ e))])
    ∧ (∀ v, handler args = .ok v → execute_toolG handler "search_web" args = v) := by
  refine ⟨?_, ?_, ?_⟩
  · intro h
    unfold execute_toolG
    rw [if_neg h]
  · intro e he
    unfold execute_toolG
    rw [if_pos rfl, he]
    rfl
  · intro v hv
    unfold execute_toolG
    rw [if_pos rfl, hv]

theorem c6_witness :
    execute_toolG (fun _ => .error "boom") "fetch" (.obj []) =
      .obj [("error", .str ("Unknown tool: " ++ "fetch"))]
    ∧ execute_toolG (fun _ => .error "boom") "search_web" (.obj []) =
      .obj [("error", .str ("Error executing tool search_web: " ++ "boom"))] :=
  ⟨(c6_executor_total (fun _ => .error "boom") "fetch" (.obj [])).1 (by decide),
   (c6_executor_total (fun _ => .error "boom") "search_web" (.obj [])).2.1 "boom" rfl⟩

/-- C7: when the follow-up reply itself has stop reason `tool_use`, the
orchestrator appends its content as the final assistant turn without
classifying it again: exactly one tool is executed in the cycle. -/
theorem c7_single_hop
    (send : List Message → Option Reply) (exec : String → JValue → JValue)
    (conv : List Message) (input : String) (r : Reply)
    (id name : String) (args : JValue) (final : Reply)
    (h1 : send (conv ++ [userMsg input]) = some r)
    (h2 : r.stop_reason = "tool_use")
    (h3 : firstToolUse r.content = some (id, name, args))
    (h4 : send (conv ++ [userMsg input] ++
            [asstMsg r.content, tool_result_message id (exec name args)]) = some final)
    (_h5 : final.stop_reason = "tool_use") :
    (mainCycle send exec conv input).1 =
      conv ++ [userMsg input, asstMsg r.content,
        tool_result_message id (exec name args), asstMsg final.content]
    ∧ executedTools (mainCycle send exec conv input).2 = [name] := by
  rw [mainCycle_tool send exec conv input r h1 h2,
      processG_success exec send (conv ++ [userMsg input]) r id name args final h3 h4]
  exact ⟨by simp, rfl⟩

theorem c7_witness :
    (mainCycle wSendSingleHop (execute_tool 0) [] "hi").1 =
      [] ++ [userMsg "hi", asstMsg wReplyTU.content,
        tool_result_message "tu_1" (execute_tool 0 "search_web" (.obj [("query", .str "cats")])),
        asstMsg wReplyTU2.content]
    ∧ executedTools (mainCycle wSendSingleHop (execute_tool 0) [] "hi").2 = ["search_web"] :=
  c7_single_hop wSendSingleHop (execute_tool 0) [] "hi" wReplyTU
    "tu_1" "search_web" (.obj [("query", .str "cats")]) wReplyTU2 rfl rfl rfl rfl rfl

/-- C8: if the first transport call of a cycle fails, nothing beyond the
user turn is appended: the transcript is exactly the pre-cycle transcript
plus that one user turn, and the failure is reported; the cycle performs no
other action (its full event log is the one transport call and the failure
report). -/
theorem c8_pre_tool_failure
    (send : List Message → Option Reply) (exec : String → JValue → JValue)
    (conv : List Message) (input : String)
    (h : send (conv ++ [userMsg input]) = none) :
    mainCycle send exec conv input =
      (conv ++ [userMsg input],
       [.transportCalled (conv ++ [userMsg input]), .failureReported]) :=
  mainCycle_fail send exec conv input h

theorem c8_witness :
    mainCycle wSendNone (execute_tool 0) [] "hi" =
      ([] ++ [userMsg "hi"],
       [.transportCalled ([] ++ [userMsg "hi"]), .failureReported]) :=
  c8_pre_tool_failure wSendNone (execute_tool 0) [] "hi" rfl

/-- C4: a reply makes the cycle execute a tool iff its stop reason is
`tool_use` and at least one content block is a tool-invocation block; in that
case the invocation acted on is the one of the first such block (the cycle's
executed-tool list is exactly the first block's name, later tool-invocation
blocks being ignored). -/
theorem c4_classification
    (send : List Message → Option Reply) (exec : String → JValue → JValue)
    (conv : List Message) (input : String) (r : Reply)
    (h1 : send (conv ++ [userMsg input]) = some r) :
    (executedTools (mainCycle send exec conv input).2 ≠ [] ↔
      (r.stop_reason = "tool_use" ∧
        ∃ id name args, ContentBlock.toolUse id name args ∈ r.content))
    ∧ (∀ id name args, firstToolUse r.content = some (id, name, args) →
        r.stop_reason = "tool_use" →
        executedTools (mainCycle send exec conv input).2 = [name]) := by
  by_cases h2 : r.stop_reason = "tool_use"
  · rw [mainCycle_tool send exec conv input r h1 h2]
    cases h3 : firstToolUse r.content with
    | none =>
      rw [processG_anomaly exec send _ r h3]
      constructor
      · constructor
        · intro hne
          exact absurd rfl hne
        · rintro ⟨-, id, name, args, hmem⟩
          exact ((firstToolUse_eq_none_iff _).mp h3 id name args hmem).elim
      · intro id name args hsome
        simp at hsome
    | some tri =>
      obtain ⟨id, name, args⟩ := tri
      have hexe : executedTools (Event.transportCalled (conv ++ [userMsg input]) ::
          (processG exec send (conv ++ [userMsg input]) r).events) =
          executedTools (processG exec send (conv ++ [userMsg input]) r).events := rfl
      rw [hexe, executedTools_processG exec send _ r id name args h3]
      constructor
      · constructor
        · intro _
          exact ⟨h2, id, name, args, firstToolUse_mem _ _ _ _ h3⟩
        · intro _
          simp
      · intro id' name' args' hsome _
        simp only [Option.some.injEq, Prod.mk.injEq] at hsome
        rw [hsome.2.1]
  · rw [mainCycle_plain send exec conv input r h1 h2]
    constructor
    · constructor
      · intro hne
        exact absurd rfl hne
      · rintro ⟨hstop, -⟩
        exact (h2 hstop).elim
    · intro id name args _ hstop
      exact (h2 hstop).elim

theorem c4_witness :
    (executedTools (mainCycle wSendSingleHop (execute_tool 0) [] "hi").2 ≠ [] ↔
      (wReplyTU.stop_reason = "tool_use" ∧
        ∃ id name args, ContentBlock.toolUse id name args ∈ wReplyTU.content))
    ∧ (∀ id name args, firstToolUse wReplyTU.content = some (id, name, args) →
        wReplyTU.stop_reason = "tool_use" →
        executedTools (mainCycle wSendSingleHop (execute_tool 0) [] "hi").2 = [name]) :=
  c4_classification wSendSingleHop (execute_tool 0) [] "hi" wReplyTU rfl

/-- One network-level outcome of the `requests.post` call plus
`raise_for_status` plus `response.json()` inside `send_message` (lines
79-87): either the request itself raises (connection error, timeout), or a
response arrives with a status code and a body that decodes to a reply or is
malformed (`body = none`).  `raise_for_status` raises `HTTPError` for the
non-success statuses 400-599 (real HTTP statuses are below 600), and a
malformed body raises `JSONDecodeError`; every one of these exceptions is a
`requests.exceptions.RequestException`, caught by the `except` clause, which
prints a diagnostic and returns `None`. -/
inductive HttpOutcome where
  | connError (msg : String)
  | response (status : Nat) (body : Option Reply)

/-- `send_message` (lines 56-87) as a function of the network outcome:
failures become the value `none` together with a printed diagnostic. -/
def send_message (outcome : HttpOutcome) : Option Reply × List Event :=
  match outcome with
  | .connError e => (none, [.diagnostic ("API request failed: " ++ e)])
  | .response status body =>
    if 400 ≤ status then
      (none, [.diagnostic ("API request failed: HTTP " ++ toString status)])
    else
      match body with
      | none => (none, [.diagnostic "API request failed: malformed response body"])
      | some r => (some r, [])

/-- A clean success at the transport boundary: a decodable body under a
non-error status. -/
def isCleanSuccess : HttpOutcome → Bool
  | .response status (some _) => status < 400
  | _ => false

/-- C9: on any network-level or protocol-level failure (connection error,
non-success status, malformed body) `send_message` returns the
TransportFailure value `none` and prints a diagnostic; no failure escapes as
an exception (the function is total into a value, by its type). -/
theorem c9_transport_failure_as_value (o : HttpOutcome)
    (h : isCleanSuccess o = false) :
    (send_message o).1 = none ∧ ∃ d, Event.diagnostic d ∈ (send_message o).2 := by
  cases o with
  | connError e =>
    exact ⟨rfl, "API request failed: " ++ e, by simp [send_message]⟩
  | response status body =>
    cases body with
    | none =>
      unfold send_message
      by_cases hs : 400 ≤ status
      · simp [hs]
      · simp [hs]
    | some r =>
      simp only [isCleanSuccess, decide_eq_false_iff_not, not_lt] at h
      unfold send_message
      simp [h]

theorem c9_witness :
    (send_message (.connError "Connection refused")).1 = none
    ∧ ∃ d, Event.diagnostic d ∈ (send_message (.connError "Connection refused")).2 :=
  c9_transport_failure_as_value (.connError "Connection refused") rfl

theorem hasKey_obj_iff (fields : List (String × JValue)) (k : String) :
    hasKey (.obj fields) k = true ↔ ∃ v, (k, v) ∈ fields := by
  unfold hasKey
  rw [List.any_eq_true]
  constructor
  · rintro ⟨p, hp, he⟩
    rw [decide_eq_true_eq] at he
    refine ⟨p.2, ?_⟩
    rw [← he, Prod.mk.eta]
    exact hp
  · rintro ⟨v, hv⟩
    exact ⟨(k, v), hv, by simp⟩

/-- C10: the `is_error` flag on the appended tool-result block is true iff
the mapping returned by the tool executor contains the key `error`; in
particular an executor whose successful payload happens to contain an
`error` key is reported to the service as a failed execution (see the
witness). -/
theorem c10_is_error_iff_error_key
    (exec : String → JValue → JValue)
    (send : List Message → Option Reply)
    (conversation : List Message) (r : Reply)
    (id name : String) (args : JValue) (final : Reply)
    (fields : List (String × JValue))
    (h3 : firstToolUse r.content = some (id, name, args))
    (h4 : send (conversation ++ [asstMsg r.content, tool_result_message id (exec name args)]) =
            some final)
    (hf : exec name args = .obj fields) :
    ∃ s : String, ∃ b : Bool,
      (processG exec send conversation r).conversation =
        conversation ++ [asstMsg r.content,
          ⟨"user", .blocks [.toolResult id s b]⟩, asstMsg final.content]
      ∧ (b = true ↔ ∃ v, ("error", v) ∈ fields) := by
  refine ⟨dumps (exec name args), hasKey (exec name args) "error", ?_, ?_⟩
  · rw [processG_success exec send conversation r id name args final h3 h4]
    simp [tool_result_message]
  · rw [hf]
    exact hasKey_obj_iff fields "error"

/-- Witness fixture: an executor that succeeds but whose payload carries an
`error` key as ordinary data. -/
def wExecData : String → JValue → JValue :=
  fun _ _ => .obj [("result", .str "ok"), ("error", .str "just data")]

/-- Witness fixture: an oracle that always returns a plain text reply. -/
def wSendPlain : List Message → Option Reply := fun _ => some ⟨[.text "done"], "end_turn"⟩

theorem c10_witness :
    ∃ s : String, ∃ b : Bool,
      (processG wExecData wSendPlain [] wReplyTU).conversation =
        [] ++ [asstMsg wReplyTU.content,
          ⟨"user", .blocks [.toolResult "tu_1" s b]⟩,
          asstMsg (Reply.content ⟨[.text "done"], "end_turn"⟩)]
      ∧ (b = true ↔ ∃ v, ("error", v) ∈
          [("result", JValue.str "ok"), ("error", JValue.str "just data")]) :=
  c10_is_error_iff_error_key wExecData wSendPlain [] wReplyTU "tu_1" "search_web"
    (.obj [("query", .str "cats")]) ⟨[.text "done"], "end_turn"⟩
    [("result", .str "ok"), ("error", .str "just data")] rfl rfl rfl

/-- The correlation ids of the tool-invocation blocks of a block list. -/
def blockToolUseIds : List ContentBlock → List String
  | [] => []
  | .toolUse id _ _ :: rest => id :: blockToolUseIds rest
  | _ :: rest => blockToolUseIds rest

/-- The correlation ids of the tool-invocation blocks of an assistant turn
(other roles have none, matching the claim's "assistant turn containing a
tool-invocation content block"). -/
def toolUseIds (m : Message) : List String :=
  if m.role = "assistant" then
    match m.content with
    | .blocks bs => blockToolUseIds bs
    | .str _ => []
  else []

/-- The correlation ids carried by the tool-result blocks of a turn. -/
def toolResultIds (m : Message) : List String :=
  match m.content with
  | .blocks bs =>
    bs.filterMap fun b =>
      match b with
      | .toolResult id _ _ => some id
      | _ => none
  | .str _ => []

/-- Every tool-invocation block of `m` is answered by a tool-result block
with the same correlation id in the immediately following turn. -/
def resolvedAfter (m : Message) (next : Option Message) : Bool :=
  (toolUseIds m).all fun id =>
    match next with
    | some n => (toolResultIds n).contains id
    | none => false

/-- The claimed transcript invariant: no assistant turn with a
tool-invocation block lacks an immediately following tool-result turn with
matching correlation id. -/
def noOrphans : List Message → Bool
  | [] => true
  | m :: rest => resolvedAfter m rest.head? && noOrphans rest

theorem toolUseIds_asst (bs : List ContentBlock) :
    toolUseIds (asstMsg bs) = blockToolUseIds bs := rfl

theorem toolUseIds_eq_nil_of_resolvedAfter_none (m : Message)
    (h : resolvedAfter m none = true) : toolUseIds m = [] := by
  unfold resolvedAfter at h
  rw [List.all_eq_true] at h
  cases hids : toolUseIds m with
  | nil => rfl
  | cons a l =>
    have := h a (by rw [hids]; exact List.mem_cons_self _ _)
    simp at this

theorem resolvedAfter_of_none (m : Message) (x : Option Message)
    (h : resolvedAfter m none = true) : resolvedAfter m x = true := by
  unfold resolvedAfter
  rw [toolUseIds_eq_nil_of_resolvedAfter_none m h]
  rfl

theorem noOrphans_append (l xs : List Message)
    (hl : noOrphans l = true) (hxs : noOrphans xs = true) :
    noOrphans (l ++ xs) = true := by
  induction l with
  | nil => simpa
  | cons m rest ih =>
    rw [List.cons_append]
    unfold noOrphans at hl ⊢
    rw [Bool.and_eq_true] at hl ⊢
    refine ⟨?_, ih hl.2⟩
    cases rest with
    | nil =>
      cases xs with
      | nil => exact hl.1
      | cons y ys => exact resolvedAfter_of_none m _ hl.1
    | cons r rs => exact hl.1

theorem noOrphans_single (m : Message) (h : toolUseIds m = []) :
    noOrphans [m] = true := by
  unfold noOrphans resolvedAfter
  rw [h]
  rfl

theorem noOrphans_pair (a b : Message)
    (hab : resolvedAfter a (some b) = true) (hb : toolUseIds b = []) :
    noOrphans [a, b] = true := by
  have h1 : noOrphans [a, b] = (resolvedAfter a (some b) && noOrphans [b]) := rfl
  rw [h1, hab, noOrphans_single b hb]
  rfl

theorem blockToolUseIds_eq_nil (bs : List ContentBlock)
    (h : firstToolUse bs = none) : blockToolUseIds bs = [] := by
  induction bs with
  | nil => rfl
  | cons b rest ih =>
    cases b with
    | toolUse i n a => simp [firstToolUse] at h
    | text s => exact ih (by simpa [firstToolUse] using h)
    | toolResult a c e => exact ih (by simpa [firstToolUse] using h)
    | other t => exact ih (by simpa [firstToolUse] using h)

theorem blockToolUseIds_head (bs : List ContentBlock) (id name : String) (args : JValue)
    (h : firstToolUse bs = some (id, name, args)) :
    ∃ rest, blockToolUseIds bs = id :: rest := by
  induction bs with
  | nil => simp [firstToolUse] at h
  | cons b l ih =>
    cases b with
    | toolUse i n a =>
      simp only [firstToolUse, Option.some.injEq, Prod.mk.injEq] at h
      refine ⟨blockToolUseIds l, ?_⟩
      simp only [blockToolUseIds]
      rw [h.1]
    | text s => exact ih (by simpa [firstToolUse] using h)
    | toolResult a c e => exact ih (by simpa [firstToolUse] using h)
    | other t => exact ih (by simpa [firstToolUse] using h)

theorem blockToolUseIds_singleton (bs : List ContentBlock) (id name : String) (args : JValue)
    (h : firstToolUse bs = some (id, name, args))
    (hlen : (blockToolUseIds bs).length ≤ 1) :
    blockToolUseIds bs = [id] := by
  obtain ⟨rest, hr⟩ := blockToolUseIds_head bs id name args h
  rw [hr] at hlen ⊢
  cases rest with
  | nil => rfl
  | cons a l => simp at hlen

theorem getLast_append_pair (l : List Message) (a b : Message) :
    (l ++ [a, b]).getLast? = some b := by
  rw [show l ++ [a, b] = (l ++ [a]) ++ [b] by simp, List.getLast?_concat]

/-- A well-behaved service: every reply holds at most one tool-invocation
block; a reply holding one has stop reason `tool_use`; and a reply to a
transcript whose last turn carries a tool-result block holds no
tool-invocation block (the service does not chain a further tool call, per
the single-hop scope limit). -/
def Benign (send : List Message → Option Reply) : Prop :=
  ∀ c r, send c = some r →
    (blockToolUseIds r.content).length ≤ 1 ∧
    (blockToolUseIds r.content ≠ [] → r.stop_reason = "tool_use") ∧
    ((∃ m, c.getLast? = some m ∧ toolResultIds m ≠ []) → blockToolUseIds r.content = [])

theorem noOrphans_mainCycle (send : List Message → Option Reply)
    (exec : String → JValue → JValue)
    (conv : List Message) (input : String)
    (hb : Benign send) (h : noOrphans conv = true) :
    noOrphans (mainCycle send exec conv input).1 = true := by
  have huser : noOrphans (conv ++ [userMsg input]) = true :=
    noOrphans_append conv [userMsg input] h (noOrphans_single _ rfl)
  cases hs : send (conv ++ [userMsg input]) with
  | none =>
    rw [mainCycle_fail send exec conv input hs]
    exact huser
  | some r =>
    by_cases h2 : r.stop_reason = "tool_use"
    · rw [mainCycle_tool send exec conv input r hs h2]
      cases h3 : firstToolUse r.content with
      | none =>
        rw [processG_anomaly exec send _ r h3]
        exact noOrphans_append _ _ huser
          (noOrphans_single _ (by rw [toolUseIds_asst]; exact blockToolUseIds_eq_nil _ h3))
      | some tri =>
        obtain ⟨id, name, args⟩ := tri
        cases h4 : send ((conv ++ [userMsg input]) ++
            [asstMsg r.content, tool_result_message id (exec name args)]) with
        | none =>
          rw [processG_rollback exec send _ r id name args h3 h4]
          exact huser
        | some final =>
          rw [processG_success exec send _ r id name args final h3 h4]
          obtain ⟨hlen1, -, -⟩ := hb _ _ hs
          obtain ⟨-, -, hclean⟩ := hb _ _ h4
          have hasst : blockToolUseIds r.content = [id] :=
            blockToolUseIds_singleton _ _ _ _ h3 hlen1
          have hfinal : blockToolUseIds final.content = [] := by
            refine hclean ⟨tool_result_message id (exec name args), getLast_append_pair _ _ _, ?_⟩
            simp [tool_result_message, toolResultIds]
          have hresolved : resolvedAfter (asstMsg r.content)
              (some (tool_result_message id (exec name args))) = true := by
            unfold resolvedAfter
            rw [toolUseIds_asst, hasst]
            simp [tool_result_message, toolResultIds]
          have htriple : noOrphans [asstMsg r.content,
              tool_result_message id (exec name args), asstMsg final.content] = true :=
            noOrphans_append [asstMsg r.content, tool_result_message id (exec name args)]
              [asstMsg final.content]
              (noOrphans_pair _ _ hresolved rfl)
              (noOrphans_single _ (by rw [toolUseIds_asst]; exact hfinal))
          exact noOrphans_append _ _ huser htriple
    · rw [mainCycle_plain send exec conv input r hs h2]
      obtain ⟨-, himp, -⟩ := hb _ _ hs
      have hnil : blockToolUseIds r.content = [] := by
        by_contra hne
        exact h2 (himp hne)
      exact noOrphans_append _ _ huser
        (noOrphans_single _ (by rw [toolUseIds_asst]; exact hnil))

/-- Witness fixture: a service whose reply carries a tool-invocation block
under a non-`tool_use` stop reason; the cycle appends it verbatim, leaving
an unresolved tool-invocation block in the transcript. -/
def wSendMislabeled : List Message → Option Reply :=
  fun _ => some ⟨[.toolUse "tu_1" "search_web" (.obj [])], "end_turn"⟩

/-- C2 counterexample: a reachable boundary state (one cycle from the empty
transcript, against a service that embeds a tool-invocation block in a reply
whose stop reason is not `tool_use`) violates the no-orphan invariant: the
final assistant turn contains a tool-invocation block with no following
tool-result turn. -/
theorem c2_counterexample :
    Reachable (mainCycle wSendMislabeled (execute_tool 0) [] "hi").1
    ∧ noOrphans (mainCycle wSendMislabeled (execute_tool 0) [] "hi").1 = false :=
  ⟨Reachable.step wSendMislabeled 0 [] "hi" Reachable.init, rfl⟩

/-- Transcript states reachable at the boundary between user-input cycles
against a well-behaved service (each cycle's oracle `Benign`). -/
inductive ReachableB : List Message → Prop where
  | init : ReachableB []
  | step (send : List Message → Option Reply) (now : Int)
      (conv : List Message) (input : String) :
      Benign send → ReachableB conv →
      ReachableB (mainCycle send (execute_tool now) conv input).1

/-- C2 (amended): for all transcript states reachable at the boundary
between user-input cycles against a well-behaved service — replies hold at
most one tool-invocation block, only under stop reason `tool_use`, and never
in the follow-up reply to a transcript ending in a tool-result turn — every
assistant turn containing a tool-invocation content block is immediately
followed by a tool-result turn with matching correlation id. -/
theorem c2_no_orphans_benign (conv : List Message) (h : ReachableB conv) :
    noOrphans conv = true := by
  induction h with
  | init => rfl
  | step send now conv input hb hr ih =>
    exact noOrphans_mainCycle send (execute_tool now) conv input hb ih

theorem benign_wSendPlain : Benign wSendPlain := by
  intro c r hr
  simp only [wSendPlain, Option.some.injEq] at hr
  subst hr
  refine ⟨by decide, ?_, ?_⟩
  · intro h
    exact absurd rfl h
  · intro _
    rfl

theorem c2_witness :
    noOrphans (mainCycle wSendPlain (execute_tool 0) [] "hello").1 = true :=
  c2_no_orphans_benign _
    (ReachableB.step wSendPlain 0 [] "hello" benign_wSendPlain ReachableB.init)

end Chat
